import Mathlib

/-!
Verification of the hajimi888 crawl-and-validation pipeline.

This file gives a shallow embedding of the repository's core logic:

* `src/utils/github_client.py` — the shared rate-limit state
  (`_GLOBAL_COOLDOWN_UNTIL`, `_CONSECUTIVE_403_COUNT`) and the paginated
  `search_for_keys` loop, with the network abstracted as a page-indexed
  oracle `fetch : Nat → Option (Nat × List α)` (`none` models a page whose
  retry budget was exhausted; `some (tc, items)` models a successful JSON
  response with its `total_count` and `items`).
* `src/app/hajimi_king.py` — key extraction (`extract_keys_from_content`),
  placeholder filtering, the dedup/skip check `should_skip_item`, and the
  classification of validation results inside `process_item`.
* `src/utils/file_manager.py` — `save_scanned_shas` / `load_scanned_shas`,
  with a file modelled as its exact character content (`List Char`).
* `src/common/config.py` — the deep-scan configuration constants.

Strings from the Python side are modelled as `List Char`; timestamps as
`Int` (seconds, resp. the relevant unit); machine integers do not overflow
in any of the verified paths (Python ints are unbounded).
-/

namespace Hajimi

/-! ### Character/string primitives (Python `in`, `find`, slicing, `upper`) -/

/-- First index at which `pat` occurs in the haystack, Python `str.find`
(`none` for Python's `-1`). -/
def findSub (pat : List Char) : List Char → Option Nat
  | [] => if pat.isPrefixOf ([] : List Char) then some 0 else none
  | c :: t =>
    if pat.isPrefixOf (c :: t) then some 0
    else (findSub pat t).map (· + 1)

/-- Python's substring test `pat in hay`. -/
def containsSub (hay pat : List Char) : Bool :=
  (findSub pat hay).isSome

/-! ### `src/utils/github_client.py`: shared rate-limit state -/

/-- The class-level shared state of `GitHubClient`:
`_GLOBAL_COOLDOWN_UNTIL` and `_CONSECUTIVE_403_COUNT`. -/
structure RLState where
  cooldownUntil : Int
  count403 : Int
deriving DecidableEq

/-- Initial values of the class-level variables (both `0`,
`github_client.py` lines 13–14). -/
def initState : RLState := ⟨0, 0⟩

/-- The 403/429 branch of `search_for_keys` (lines 65–71): increment
`_CONSECUTIVE_403_COUNT`, then set the global cooldown to
`now + max(Retry-After, 60 * count)` using the incremented count. -/
def recordViolation (now retryAfter : Int) (s : RLState) : RLState :=
  let c := s.count403 + 1
  { count403 := c, cooldownUntil := now + max retryAfter (60 * c) }

/-- The success branch (line 82):
`_CONSECUTIVE_403_COUNT = max(0, _CONSECUTIVE_403_COUNT - 1)`. -/
def recordSuccess (s : RLState) : RLState :=
  { s with count403 := max 0 (s.count403 - 1) }

/-- The 403 branch of `get_file_content` (line 121):
`_GLOBAL_COOLDOWN_UNTIL = time.time() + 60`; the counter is untouched. -/
def fetch403Penalty (now : Int) (s : RLState) : RLState :=
  { s with cooldownUntil := now + 60 }

/-- The operations of `GitHubClient` that mutate the shared state. -/
inductive GHOp
  | violation (now retryAfter : Int)
  | success
  | contentFetch403 (now : Int)
deriving DecidableEq

def applyOp (s : RLState) : GHOp → RLState
  | .violation now ra => recordViolation now ra s
  | .success => recordSuccess s
  | .contentFetch403 now => fetch403Penalty now s

/-- Run a trace of state-mutating operations from the initial class state. -/
def runOps (ops : List GHOp) : RLState := ops.foldl applyOp initState

/-! ### `src/utils/github_client.py`: the pagination loop of `search_for_keys`

The loop body (lines 41–103) is embedded with the network abstracted as
`fetch : Nat → Option (Nat × List α)`: `fetch page = none` models a page on
which every one of the `max_retries` attempts failed (`page_success` stays
`False`), and `fetch page = some (tc, items)` models a successful response
whose parsed JSON carries `total_count = tc` and `items`.  Sleeps, header
jitter and token rotation do not affect the returned value and are elided. -/

/-- Python's `expected_total or 1000` (line 100): `None` and `0` both fall
back to the hard result-window limit `1000`. -/
def expectedCap : Option Nat → Nat
  | none => 1000
  | some n => if n = 0 then 1000 else n

/-- One pass of the `for page in range(1, 11)` loop, with `fuel` pages left
to visit.  Returns `(total_count, all_items)` as assembled at line 106. -/
def searchGo (fetch : Nat → Option (Nat × List α)) :
    Nat → Nat → List α → Nat → Option Nat → Nat × List α
  | 0, _, acc, tc, _ => (tc, acc)
  | fuel + 1, page, acc, tc, et =>
    match fetch page with
    | none => (tc, acc)
    | some (pageTc, items) =>
      let tc2 := if page = 1 then pageTc else tc
      let et2 := if page = 1 then some (min pageTc 1000) else et
      let acc2 := acc ++ items
      match items with
      | [] => (tc2, acc2)
      | _ :: _ =>
        if expectedCap et2 ≤ acc2.length then (tc2, acc2)
        else searchGo fetch fuel (page + 1) acc2 tc2 et2

/-- `search_for_keys`: pages 1..10, starting from an empty accumulator,
`total_count = 0` and `expected_total = None`. -/
def search_for_keys (fetch : Nat → Option (Nat × List α)) : Nat × List α :=
  searchGo fetch 10 1 [] 0 none

/-- A concrete two-page fetch: page 1 has 100 items and advertises
`total_count = 150`; page 2 has 50 items; later pages fail. -/
def fetchTwoPages : Nat → Option (Nat × List Nat) :=
  fun p =>
    if p = 1 then some (150, List.range 100)
    else if p = 2 then some (0, List.range 50)
    else none

/-! ### `src/app/hajimi_king.py`: key extraction and placeholder filtering -/

/-- A character of the regex class `[A-Za-z0-9\-_]`. -/
def isKeyChar (c : Char) : Bool := c.isAlphanum || c = '-' || c = '_'

/-- The fixed head of the secret pattern, `AIzaSy`. -/
def keyHead : List Char := "AIzaSy".toList

/-- Try to match the regex `AIzaSy[A-Za-z0-9\-_]{33}` (39 characters total)
at the start of `cs`; on success return the matched characters. -/
def matchKeyAt (cs : List Char) : Option (List Char) :=
  if keyHead.isPrefixOf cs && ((cs.drop 6).take 33).length = 33 &&
      ((cs.drop 6).take 33).all isKeyChar then
    some (cs.take 39)
  else none

/-- Left-to-right, non-overlapping scan of `re.findall` for the fixed-width
pattern: on a match, emit it and resume after its 39 characters; otherwise
advance one position.  `fuel` bounds the recursion (each step strictly
shortens the list, so `fuel = length` suffices). -/
def extractAux : Nat → List Char → List (List Char)
  | 0, _ => []
  | _ + 1, [] => []
  | fuel + 1, c :: rest =>
    match matchKeyAt (c :: rest) with
    | some k => k :: extractAux fuel ((c :: rest).drop 39)
    | none => extractAux fuel rest

/-- `extract_keys_from_content` (hajimi_king.py lines 133–135):
`re.findall(r'(AIzaSy[A-Za-z0-9\-_]{33})', content)`. -/
def extract_keys_from_content (content : List Char) : List (List Char) :=
  extractAux content.length content

/-- The literal `"..."`. -/
def dotsChars : List Char := "...".toList

/-- The literal `"YOUR_"`. -/
def yourChars : List Char := "YOUR_".toList

/-- The placeholder filter applied per candidate in `process_item`
(lines 181–186): look up the candidate's first occurrence in the content
(`content.find(key)`), take the 45-character window starting there, and
reject the candidate when the window contains `"..."` or, uppercased,
`"YOUR_"`. -/
def keepKey (content key : List Char) : Bool :=
  match findSub key content with
  | none => true
  | some i =>
    let snippet := (content.drop i).take 45
    !(containsSub snippet dotsChars) &&
      !(containsSub (snippet.map Char.toUpper) yourChars)

/-- The deduplicated candidate set handed to validation by `process_item`
(lines 179–194): extracted keys, placeholder-filtered, then
`list(set(filtered_keys))` — modelled up to order by `List.dedup`. -/
def validation_candidates (content : List Char) : List (List Char) :=
  ((extract_keys_from_content content).filter (keepKey content)).dedup

/-- A concrete well-formed candidate key (39 characters) used as test
input. -/
def keyA : List Char := "AIzaSy".toList ++ List.replicate 33 'A'

/-- A concrete content in which `keyA` occurs twice: first in a clean
context, then immediately followed by `"..."`. -/
def contentTwice : List Char :=
  keyA ++ "BBBBBB".toList ++ keyA ++ "...".toList

/-! ### `src/app/hajimi_king.py`: classification of validation outcomes -/

/-- The three buckets of the `if/elif/else` at lines 196–203. -/
inductive KeyClass
  | valid
  | rateLimited
  | invalid
deriving DecidableEq

/-- The branch taken by `process_item` for one validation-result string:
`if validation_result and "ok" in validation_result` → valid;
`elif validation_result == "rate_limited"` → rate-limited; else invalid. -/
def classify_validation_result (r : List Char) : KeyClass :=
  if !r.isEmpty && containsSub r "ok".toList then .valid
  else if r = "rate_limited".toList then .rateLimited
  else .invalid

/-- The `(valid_keys, rate_limited_keys)` lists assembled by the loop at
lines 194–203, given the validation call as an oracle.  `valid_keys` is
what `save_valid_keys` persists and `sync_utils.add_keys_to_queue`
receives (lines 205–213); `rate_limited_keys` is what
`save_rate_limited_keys` persists (lines 215–216). -/
def process_item_classify (oracle : List Char → List Char)
    (keys : List (List Char)) : List (List Char) × List (List Char) :=
  (keys.filter (fun k => classify_validation_result (oracle k) = KeyClass.valid),
   keys.filter (fun k => classify_validation_result (oracle k) = KeyClass.rateLimited))

/-! ### `src/app/hajimi_king.py`: `should_skip_item` -/

/-- One search hit, with the fields `should_skip_item` reads.  Timestamps
are pre-parsed: `pushedAt = none` models a missing (or unparseable)
`repository.pushed_at`. -/
structure RepoItem where
  sha : Option (List Char)
  pushedAt : Option Int
  path : List Char

/-- The checkpoint fields read by `should_skip_item`; `lastScanTime = none`
models an unset (or unparseable) `last_scan_time`. -/
structure CrawlCheckpoint where
  lastScanTime : Option Int
  scannedShas : List (List Char)

/-- Lines 138–147: skip when `repository.pushed_at <= last_scan_time`,
both present and parseable. -/
def timeFilterHit : Option Int → Option Int → Bool
  | some t, some p => decide (p ≤ t)
  | _, _ => false

/-- Line 149: `item.get("sha") in checkpoint.scanned_shas` (a missing sha
is never a member of a set of strings). -/
def shaSeen : Option (List Char) → List (List Char) → Bool
  | some s, shas => shas.contains s
  | none, _ => false

/-- Lines 153–156: skip when the repository was pushed before
`utcnow() - timedelta(days=DATE_RANGE_DAYS)`; `cutoff` stands for that
derived bound. -/
def ageFilterHit (cutoff : Int) : Option Int → Bool
  | some p => decide (p < cutoff)
  | none => false

/-- `should_skip_item` (lines 137–165): the four checks in source order,
returning the skip flag with its reason string. -/
def should_skip_item (cutoff : Int) (blacklist : List (List Char))
    (item : RepoItem) (cp : CrawlCheckpoint) : Bool × List Char :=
  if timeFilterHit cp.lastScanTime item.pushedAt then
    (true, "time_filter".toList)
  else if shaSeen item.sha cp.scannedShas then
    (true, "sha_duplicate".toList)
  else if ageFilterHit cutoff item.pushedAt then
    (true, "age_filter".toList)
  else if blacklist.any (fun tok => containsSub (item.path.map Char.toLower) tok) then
    (true, "doc_filter".toList)
  else (false, [])

/-! ### `src/utils/file_manager.py`: the scanned-shas store

A file is modelled as its exact character content.  `save_scanned_shas`
(lines 159–164) writes, into a freshly truncated file, the two `#` header
lines, a blank line, then each sha of `sorted(scanned_shas)` followed by a
newline.  `load_scanned_shas` (lines 128–137) iterates over the lines,
strips each, and keeps those that are non-empty and do not start with
`#`. -/

/-- Split on `'\n'`, Python-file-iteration style (the terminator is not
part of the line; a trailing newline yields a final empty line). -/
def splitNl : List Char → List (List Char)
  | [] => [[]]
  | c :: rest =>
    if c = '\n' then [] :: splitNl rest
    else
      match splitNl rest with
      | [] => [[c]]
      | l :: ls => (c :: l) :: ls

/-- Python `str.strip()`: remove whitespace from both ends. -/
def stripCh (l : List Char) : List Char :=
  ((l.dropWhile Char.isWhitespace).reverse.dropWhile Char.isWhitespace).reverse

/-- The keep condition of `load_scanned_shas`:
`if line and not line.startswith('#')` on the stripped line. -/
def keepLine : List Char → Bool
  | [] => false
  | c :: _ => c ≠ '#'

/-- `load_scanned_shas` on a file content: the kept stripped lines (the
Python version accumulates them into a set; membership is preserved). -/
def load_scanned_shas (file : List Char) : List (List Char) :=
  ((splitNl file).map stripCh).filter keepLine

/-- Python `str` comparison (`sorted`): lexicographic on code points. -/
def strLe : List Char → List Char → Bool
  | [], _ => true
  | _ :: _, [] => false
  | a :: as, b :: bs =>
    if a < b then true
    else if a = b then strLe as bs
    else false

/-- `sorted(scanned_shas)`. -/
def sortShas (shas : List (List Char)) : List (List Char) :=
  List.insertionSort (fun a b => strLe a b = true) shas

/-- Concatenate lines, each terminated by `'\n'` — the exact effect of the
`f.write` calls in `save_scanned_shas`. -/
def joinLines (ls : List (List Char)) : List Char :=
  (ls.map (fun l => l ++ ['\n'])).flatten

/-- The three header lines written first by `save_scanned_shas`
(`ts` stands for the interpolated `datetime.now()` text). -/
def headerLines (ts : List Char) : List (List Char) :=
  ("# GitHub PAT Scanned SHAs".toList) :: ("# Last Update: ".toList ++ ts) :: ([] : List Char) :: []

/-- `save_scanned_shas`: the full content of the rewritten file. -/
def save_scanned_shas (ts : List Char) (shas : List (List Char)) : List Char :=
  joinLines (headerLines ts ++ sortShas shas)

/-! ### `src/common/config.py` and the deep-scan orchestrator

The deep-scan configuration constants are in `config.py` (lines 29–33,
55–56): `DEEP_SCAN_INTERVAL_DAYS = 7`, `DATE_RANGE_DAYS = 365`, and the
static exclusion dork.  The orchestrator itself lives in `main()` of
`hajimi_king.py`, which is truncated mid-statement in the sources (the
file ends inside `main`), so the slicing loop is modelled from the spec
below. -/

/-- `Config.GLOBAL_EXCLUDE_DORK` (config.py line 33). -/
def GLOBAL_EXCLUDE_DORK : List Char :=
  "-path:docs -path:tests -path:samples -filename:README.md -filename:package-lock.json -path:node_modules".toList

/-- `Config.DEEP_SCAN_INTERVAL_DAYS` default (config.py line 31). -/
def DEEP_SCAN_INTERVAL_DAYS : Nat := 7

/-- `Config.DATE_RANGE_DAYS` default (config.py line 56). -/
def DATE_RANGE_DAYS : Nat := 365

/-- Modelled from the spec: the Deep-Scan Orchestrator's time slicing
(`main()` is truncated in the sources).  Starting from the newest end
`hi`, emit a slice of width `min w remaining` and recurse on the rest of
the lookback window; `fuel ≥ remaining` guarantees enough steps.  A slice
`(lo, hi)` covers the half-open day range `(lo, hi]`. -/
def timeSlicesAux (w : Nat) : Nat → Int → Nat → List (Int × Int)
  | 0, _, _ => []
  | fuel + 1, hi, remaining =>
    if remaining = 0 then []
    else
      let step := min w remaining
      (hi - step, hi) :: timeSlicesAux w fuel (hi - step) (remaining - step)

/-- Modelled from the spec: partition the `rangeDays`-day lookback window
ending at `today` into contiguous, non-overlapping slices of width
`sliceDays`, newest-first (the last slice may be narrower). -/
def time_slices (today : Int) (rangeDays sliceDays : Nat) : List (Int × Int) :=
  timeSlicesAux sliceDays rangeDays today rangeDays

/-- Modelled from the spec: each slice is issued as one search call whose
query is the logical query augmented by a date-range predicate
(`fmt` renders a day timestamp) and the static exclusion predicate. -/
def slice_queries (q : List Char) (fmt : Int → List Char) (today : Int)
    (rangeDays sliceDays : Nat) : List (List Char) :=
  (time_slices today rangeDays sliceDays).map (fun s =>
    q ++ " created:".toList ++ fmt s.1 ++ "..".toList ++ fmt s.2 ++
      [' '] ++ GLOBAL_EXCLUDE_DORK)

/-- Newest-first adjacency: each slice is non-degenerate and the next
(older) slice ends exactly where this one starts — no gap, no overlap. -/
def contiguousDesc : List (Int × Int) → Bool
  | [] => true
  | (lo, hi) :: rest =>
    decide (lo < hi) &&
      (match rest with
       | [] => true
       | (_, hi2) :: _ => decide (hi2 = lo)) &&
      contiguousDesc rest

/-! ## Helper lemmas -/

theorem applyOp_count_nonneg (s : RLState) (op : GHOp) (h : 0 ≤ s.count403) :
    0 ≤ (applyOp s op).count403 := by
  cases op <;>
    simp only [applyOp, recordViolation, recordSuccess, fetch403Penalty] <;>
    omega

theorem foldl_applyOp_count_nonneg :
    ∀ (ops : List GHOp) (s : RLState), 0 ≤ s.count403 →
      0 ≤ (ops.foldl applyOp s).count403
  | [], _, h => h
  | op :: ops, s, h =>
    foldl_applyOp_count_nonneg ops (applyOp s op) (applyOp_count_nonneg s op h)

theorem iterate_recordSuccess_count :
    ∀ (k : Nat) (s : RLState), s.count403 = k → (recordSuccess^[k] s).count403 = 0
  | 0, _, h => by simpa using h
  | k + 1, s, h => by
    rw [Function.iterate_succ_apply]
    exact iterate_recordSuccess_count k (recordSuccess s)
      (by simp only [recordSuccess, h]; omega)

/-! ## Claims -/

/-- C10: the shared consecutive-violation counter `_CONSECUTIVE_403_COUNT`
is never negative: it starts at `0`, throttling responses increment it,
successful requests decrement it clamped at zero, and the content-fetch
penalty leaves it untouched, so any trace of `GitHubClient` operations
from the initial class state preserves `0 ≤ count403`. -/
theorem C10_count403_never_negative (ops : List GHOp) :
    initState.count403 = 0 ∧ 0 ≤ (runOps ops).count403 :=
  ⟨rfl, foldl_applyOp_count_nonneg ops initState (by decide)⟩

/-- C2 counterexample: after two recorded violations, one successful
request leaves the counter at `1`, not `0` (`max(0, c-1)` decrements), so
the next violation is charged from a base of two violations
(`60 * 2 = 120` seconds), not from a base of one (`60` seconds). -/
theorem C2_counterexample :
    (runOps [.violation 0 60, .violation 100 60, .success]).count403 ≠ 0 ∧
    (recordViolation 300 60
        (runOps [.violation 0 60, .violation 100 60, .success])).cooldownUntil ≠
      300 + 60 * 1 ∧
    (recordViolation 300 60
        (runOps [.violation 0 60, .violation 100 60, .success])).cooldownUntil =
      300 + 60 * 2 := by
  decide

/-- C2 amended: a successful search request decrements the shared
consecutive-violation counter by one, clamped at zero — it does not reset
it.  After `k` recorded violations, `k` consecutive successes (not one)
bring the counter back to zero, and only then does the next violation
compute its cooldown from a base of one violation
(`now + max(retry_after, 60 * 1)`). -/
theorem C2_success_decrements_by_one (k : Nat) (s : RLState) (now ra : Int)
    (h : s.count403 = k) :
    (recordSuccess s).count403 = max 0 (s.count403 - 1) ∧
    (recordSuccess^[k] s).count403 = 0 ∧
    (recordViolation now ra (recordSuccess^[k] s)).cooldownUntil =
      now + max ra 60 := by
  refine ⟨rfl, iterate_recordSuccess_count k s h, ?_⟩
  simp [recordViolation, iterate_recordSuccess_count k s h]

/-- C2 amended, witness at `k = 2` from two recorded violations. -/
theorem C2_success_decrements_by_one_witness :
    (recordSuccess (runOps [.violation 0 60, .violation 100 60])).count403 =
      max 0 ((runOps [.violation 0 60, .violation 100 60]).count403 - 1) ∧
    (recordSuccess^[2] (runOps [.violation 0 60, .violation 100 60])).count403 = 0 ∧
    (recordViolation 300 30
        (recordSuccess^[2] (runOps [.violation 0 60, .violation 100 60]))).cooldownUntil =
      300 + max 30 60 :=
  C2_success_decrements_by_one 2 (runOps [.violation 0 60, .violation 100 60])
    300 30 (by decide)

/-- C3: every recorded throttling response first increments the shared
counter and then sets the cooldown end to `now + max(Retry-After, 60 *
count)`; three consecutive throttle responses with no intervening success
(each observed at or after the previous cooldown end, which the code
enforces by sleeping in `_wait_if_cooldown`) strictly increase
`cooldownUntil`, each time by at least `60` times the current violation
count. -/
theorem C3_cooldown_escalation (s0 : RLState) (t1 ra1 t2 ra2 t3 ra3 : Int)
    (hc : 0 ≤ s0.count403)
    (h1 : s0.cooldownUntil ≤ t1)
    (h2 : (recordViolation t1 ra1 s0).cooldownUntil ≤ t2)
    (h3 : (recordViolation t2 ra2 (recordViolation t1 ra1 s0)).cooldownUntil ≤ t3) :
    (recordViolation t1 ra1 s0).count403 = s0.count403 + 1 ∧
    (recordViolation t2 ra2 (recordViolation t1 ra1 s0)).count403 = s0.count403 + 2 ∧
    (recordViolation t3 ra3 (recordViolation t2 ra2
        (recordViolation t1 ra1 s0))).count403 = s0.count403 + 3 ∧
    s0.cooldownUntil + 60 * (s0.count403 + 1) ≤
      (recordViolation t1 ra1 s0).cooldownUntil ∧
    (recordViolation t1 ra1 s0).cooldownUntil + 60 * (s0.count403 + 2) ≤
      (recordViolation t2 ra2 (recordViolation t1 ra1 s0)).cooldownUntil ∧
    (recordViolation t2 ra2 (recordViolation t1 ra1 s0)).cooldownUntil +
        60 * (s0.count403 + 3) ≤
      (recordViolation t3 ra3 (recordViolation t2 ra2
        (recordViolation t1 ra1 s0))).cooldownUntil ∧
    s0.cooldownUntil < (recordViolation t1 ra1 s0).cooldownUntil ∧
    (recordViolation t1 ra1 s0).cooldownUntil <
      (recordViolation t2 ra2 (recordViolation t1 ra1 s0)).cooldownUntil ∧
    (recordViolation t2 ra2 (recordViolation t1 ra1 s0)).cooldownUntil <
      (recordViolation t3 ra3 (recordViolation t2 ra2
        (recordViolation t1 ra1 s0))).cooldownUntil := by
  obtain ⟨cu0, c0⟩ := s0
  simp only [recordViolation] at h1 h2 h3 hc ⊢
  refine ⟨trivial, by omega, by omega, ?_, ?_, ?_, ?_, ?_, ?_⟩
  · linarith [le_max_right ra1 (60 * (c0 + 1))]
  · linarith [le_max_right ra2 (60 * (c0 + 1 + 1))]
  · linarith [le_max_right ra3 (60 * (c0 + 1 + 1 + 1))]
  · linarith [le_max_right ra1 (60 * (c0 + 1))]
  · linarith [le_max_right ra2 (60 * (c0 + 1 + 1))]
  · linarith [le_max_right ra3 (60 * (c0 + 1 + 1 + 1))]

/-- C3 witness: three throttle responses from the initial state, each
observed exactly at the previous cooldown end. -/
theorem C3_cooldown_escalation_witness :
    (recordViolation 0 0 initState).count403 = initState.count403 + 1 ∧
    (recordViolation 60 0 (recordViolation 0 0 initState)).count403 =
      initState.count403 + 2 ∧
    (recordViolation 180 0 (recordViolation 60 0
        (recordViolation 0 0 initState))).count403 = initState.count403 + 3 ∧
    initState.cooldownUntil + 60 * (initState.count403 + 1) ≤
      (recordViolation 0 0 initState).cooldownUntil ∧
    (recordViolation 0 0 initState).cooldownUntil +
        60 * (initState.count403 + 2) ≤
      (recordViolation 60 0 (recordViolation 0 0 initState)).cooldownUntil ∧
    (recordViolation 60 0 (recordViolation 0 0 initState)).cooldownUntil +
        60 * (initState.count403 + 3) ≤
      (recordViolation 180 0 (recordViolation 60 0
        (recordViolation 0 0 initState))).cooldownUntil ∧
    initState.cooldownUntil < (recordViolation 0 0 initState).cooldownUntil ∧
    (recordViolation 0 0 initState).cooldownUntil <
      (recordViolation 60 0 (recordViolation 0 0 initState)).cooldownUntil ∧
    (recordViolation 60 0 (recordViolation 0 0 initState)).cooldownUntil <
      (recordViolation 180 0 (recordViolation 60 0
        (recordViolation 0 0 initState))).cooldownUntil :=
  C3_cooldown_escalation initState 0 0 60 0 180 0 (by decide) (by decide)
    (by decide) (by decide)

/-- C5: if the current page's retry budget is exhausted without a success
(`fetch page = none`), the search loop returns the accumulated items of
the already-fetched pages as a normal value — a partial result, not a
failure — for every page, including the first. -/
theorem C5_retry_exhaustion_partial_result {α : Type}
    (fetch : Nat → Option (Nat × List α)) (fuel page : Nat) (acc : List α)
    (tc : Nat) (et : Option Nat) (h : fetch page = none) :
    searchGo fetch (fuel + 1) page acc tc et = (tc, acc) := by
  simp [searchGo, h]

/-- C5 witness: a fetch that always fails makes `search_for_keys` return
the empty partial result from page 1. -/
theorem C5_retry_exhaustion_partial_result_witness :
    searchGo (fun _ => (none : Option (Nat × List Nat))) (9 + 1) 1 [] 0 none =
      (0, []) :=
  C5_retry_exhaustion_partial_result (fun _ => none) 9 1 [] 0 none rfl

/-- C1 counterexample: the classification in `process_item` tests
`"ok" in validation_result` (substring) and `validation_result ==
"rate_limited"` (exact equality).  Hence the rate-limited outcome string
`"rate_limited:429"` is classified invalid — it is neither persisted via
`save_rate_limited_keys` nor re-queued — and an error outcome whose cause
name happens to contain `"ok"` (e.g. `error:BrokenPipeError`) is
classified valid. -/
theorem C1_counterexample :
    classify_validation_result "rate_limited:429".toList = KeyClass.invalid ∧
    (process_item_classify (fun _ => "rate_limited:429".toList) [['k']]).2 = [] ∧
    classify_validation_result "error:BrokenPipeError".toList = KeyClass.valid := by
  decide

/-- C1 amended: a key is recorded valid (persisted via `save_valid_keys`
and queued for sync) iff its validation outcome is non-empty and contains
`"ok"` as a substring — which covers the `ok` outcome but also any
`error:<cause>` whose text contains `"ok"`; it is recorded rate-limited
(persisted distinctly) iff the outcome is exactly `"rate_limited"` (the
`"rate_limited:429"` outcome falls in the invalid branch); any other
outcome is classified invalid, treated as non-fatal, and never persisted
as valid nor queued.  The two recorded lists are disjoint. -/
theorem C1_classification_membership (oracle : List Char → List Char)
    (keys : List (List Char)) (k : List Char) :
    (k ∈ (process_item_classify oracle keys).1 ↔
      k ∈ keys ∧ (!(oracle k).isEmpty && containsSub (oracle k) "ok".toList) = true) ∧
    (k ∈ (process_item_classify oracle keys).2 ↔
      k ∈ keys ∧ oracle k = "rate_limited".toList) ∧
    ¬(k ∈ (process_item_classify oracle keys).1 ∧
      k ∈ (process_item_classify oracle keys).2) := by
  have hval : ∀ r : List Char,
      classify_validation_result r = KeyClass.valid ↔
        (!r.isEmpty && containsSub r "ok".toList) = true := by
    intro r
    unfold classify_validation_result
    split_ifs with hA hB <;> simp_all
  have hrl : ∀ r : List Char,
      classify_validation_result r = KeyClass.rateLimited ↔
        r = "rate_limited".toList := by
    intro r
    unfold classify_validation_result
    split_ifs with hA hB <;> simp_all
    rintro rfl
    revert hA
    decide
  refine ⟨?_, ?_, ?_⟩
  · simp [process_item_classify, List.mem_filter, hval]
  · simp [process_item_classify, List.mem_filter, hrl]
  · rintro ⟨hv, hr⟩
    simp [process_item_classify, List.mem_filter] at hv hr
    rw [hv.2] at hr
    exact absurd hr.2 (by decide)

/-- C6 counterexample: a hit whose sha is already in the scanned set but
whose repository `pushed_at` is not newer than `last_scan_time` is skipped
with reason `time_filter`, not `sha_duplicate` — the time filter runs
first in `should_skip_item`. -/
theorem C6_counterexample :
    shaSeen (some ['a']) [['a']] = true ∧
    should_skip_item 0 [] ⟨some ['a'], some 50, []⟩ ⟨some 100, [['a']]⟩ =
      (true, "time_filter".toList) ∧
    should_skip_item 0 [] ⟨some ['a'], some 50, []⟩ ⟨some 100, [['a']]⟩ ≠
      (true, "sha_duplicate".toList) := by
  decide

/-- C6 amended: a hit whose sha is in the checkpoint's scanned set is
always skipped (`should_skip_item` returns `true`), so reprocessing is a
no-op; the reported reason is `sha_duplicate` provided the earlier time
filter did not already claim the hit (i.e. `last_scan_time` unset, or
`pushed_at` missing/newer than `last_scan_time`). -/
theorem C6_sha_duplicate_skip (cutoff : Int) (bl : List (List Char))
    (item : RepoItem) (cp : CrawlCheckpoint)
    (h : shaSeen item.sha cp.scannedShas = true) :
    (should_skip_item cutoff bl item cp).1 = true ∧
    (timeFilterHit cp.lastScanTime item.pushedAt = false →
      should_skip_item cutoff bl item cp = (true, "sha_duplicate".toList)) := by
  cases htf : timeFilterHit cp.lastScanTime item.pushedAt <;>
    simp [should_skip_item, htf, h]

/-- C6 amended, witness: a seen sha with no time-filter interference is
skipped with reason `sha_duplicate`. -/
theorem C6_sha_duplicate_skip_witness :
    (should_skip_item 0 [] ⟨some ['a'], none, []⟩ ⟨none, [['a']]⟩).1 = true ∧
    (timeFilterHit (none : Option Int) (none : Option Int) = false →
      should_skip_item 0 [] ⟨some ['a'], none, []⟩ ⟨none, [['a']]⟩ =
        (true, "sha_duplicate".toList)) :=
  C6_sha_duplicate_skip 0 [] ⟨some ['a'], none, []⟩ ⟨none, [['a']]⟩ (by decide)

/-- C7 counterexample: `process_item` checks the 45-character window only
at the candidate's FIRST occurrence (`content.find(key)`).  In
`contentTwice` the key occurs a second time immediately followed by
`"..."`, yet the key still reaches the validation set because its first
occurrence is clean. -/
theorem C7_counterexample :
    containsSub contentTwice (keyA ++ "...".toList) = true ∧
    keyA ∈ validation_candidates contentTwice := by
  decide

/-- C7 amended: a candidate key whose FIRST occurrence in the content is
followed, within the 45-character window starting at that occurrence, by
`"..."` or (case-insensitively) `"YOUR_"` never appears in the set of
keys passed to validation by `process_item`. -/
theorem C7_placeholder_filtering (content key : List Char) (i : Nat)
    (hfind : findSub key content = some i)
    (hbad : containsSub ((content.drop i).take 45) dotsChars = true ∨
      containsSub (((content.drop i).take 45).map Char.toUpper) yourChars = true) :
    key ∉ validation_candidates content := by
  intro hmem
  rw [validation_candidates, List.mem_dedup, List.mem_filter] at hmem
  have hk := hmem.2
  rw [keepKey, hfind] at hk
  rcases hbad with hb | hb <;>
    (try simp only [List.map_take, List.map_drop] at hb) <;> simp [hb] at hk

/-- C7 amended, witness: a key directly followed by `"..."` is filtered
out. -/
theorem C7_placeholder_filtering_witness :
    keyA ∉ validation_candidates (keyA ++ "...".toList) :=
  C7_placeholder_filtering (keyA ++ "...".toList) keyA 0 (by decide)
    (Or.inl (by decide))

theorem searchGo_succ {α : Type} (fetch : Nat → Option (Nat × List α))
    (fuel page : Nat) (acc : List α) (tc : Nat) (et : Option Nat) :
    searchGo fetch (fuel + 1) page acc tc et =
      match fetch page with
      | none => (tc, acc)
      | some (pageTc, items) =>
        let tc2 := if page = 1 then pageTc else tc
        let et2 := if page = 1 then some (min pageTc 1000) else et
        let acc2 := acc ++ items
        match items with
        | [] => (tc2, acc2)
        | _ :: _ =>
          if expectedCap et2 ≤ acc2.length then (tc2, acc2)
          else searchGo fetch fuel (page + 1) acc2 tc2 et2 := rfl

/-- C4: for a fixed two-page response — page 1 returning 100 items with
`total_count = 150`, page 2 returning 50 items — and no throttling,
`search_for_keys` returns exactly the 150 accumulated items and stops
because the accumulated count reached the advertised total (capped at
1000); the conclusion holds for EVERY `fetch` agreeing on pages 1 and 2,
so the result does not depend on page 3: page 3 is never requested. -/
theorem C4_two_page_scenario (fetch : Nat → Option (Nat × List Nat))
    (i1 i2 : List Nat) (t2 : Nat)
    (h1 : fetch 1 = some (150, i1)) (h2 : fetch 2 = some (t2, i2))
    (l1 : i1.length = 100) (l2 : i2.length = 50) :
    search_for_keys fetch = (150, i1 ++ i2) ∧
    (search_for_keys fetch).2.length = 150 := by
  obtain ⟨a, as, rfl⟩ : ∃ a as, i1 = a :: as := by
    cases i1 with
    | nil => simp at l1
    | cons a as => exact ⟨a, as, rfl⟩
  obtain ⟨b, bs, rfl⟩ : ∃ b bs, i2 = b :: bs := by
    cases i2 with
    | nil => simp at l2
    | cons b bs => exact ⟨b, bs, rfl⟩
  have la : as.length = 99 := by simpa using l1
  have lb : bs.length = 49 := by simpa using l2
  have step1 : search_for_keys fetch = searchGo fetch 9 2 (a :: as) 150 (some 150) := by
    show searchGo fetch (9 + 1) 1 [] 0 none = _
    rw [searchGo_succ, h1]
    simp [expectedCap, la]
  have step2 : searchGo fetch 9 2 (a :: as) 150 (some 150) =
      (150, (a :: as) ++ (b :: bs)) := by
    show searchGo fetch (8 + 1) 2 (a :: as) 150 (some 150) = _
    rw [searchGo_succ, h2]
    simp [expectedCap, List.length_append, la, lb]
  refine ⟨step1.trans step2, ?_⟩
  rw [step1, step2]
  simp [List.length_append, la, lb]

/-- C4 witness: the concrete two-page fetch yields exactly the 150 items
of pages 1 and 2. -/
theorem C4_two_page_scenario_witness :
    search_for_keys fetchTwoPages = (150, List.range 100 ++ List.range 50) ∧
    (search_for_keys fetchTwoPages).2.length = 150 :=
  C4_two_page_scenario fetchTwoPages (List.range 100) (List.range 50) 0
    rfl rfl (by simp) (by simp)

theorem timeSlicesAux_shift (w : Nat) (fuel : Nat) :
    ∀ (hi d : Int) (r : Nat),
      timeSlicesAux w fuel (hi + d) r =
        (timeSlicesAux w fuel hi r).map (fun p => (p.1 + d, p.2 + d)) := by
  induction fuel with
  | zero => intro hi d r; simp [timeSlicesAux]
  | succ n ih =>
    intro hi d r
    by_cases hr : r = 0
    · simp [timeSlicesAux, hr]
    · simp only [timeSlicesAux, if_neg hr, List.map_cons]
      have e : hi + d - (min w r : Nat) = (hi - (min w r : Nat)) + d := by ring
      rw [e, ih]

theorem contiguousDesc_map_shift (d : Int) :
    ∀ l : List (Int × Int),
      contiguousDesc (l.map (fun p => (p.1 + d, p.2 + d))) = contiguousDesc l
  | [] => rfl
  | (lo, hi) :: rest => by
    have ih := contiguousDesc_map_shift d rest
    cases rest with
    | nil => simp [contiguousDesc]
    | cons q rest' =>
      obtain ⟨lo2, hi2⟩ := q
      simp only [List.map_cons, contiguousDesc] at ih ⊢
      rw [ih]
      have e1 : decide (lo + d < hi + d) = decide (lo < hi) := by
        rw [decide_eq_decide]; omega
      have e2 : decide (hi2 + d = lo + d) = decide (hi2 = lo) := by
        rw [decide_eq_decide]; omega
      rw [e1, e2]

/-- C8 (spec-modelled — the orchestrator's `main()` is truncated in the
sources): with the configured 365-day lookback window and 7-day slice
width, the deep scan partitions the window into exactly
`ceil(365/7) = 53` contiguous, non-overlapping slices, newest-first
(first slice `(today-7, today]`, last `(today-365, today-364]`), and each
slice is issued as one search call whose query carries a date-range
predicate and ends with the static exclusion predicate
`GLOBAL_EXCLUDE_DORK`. -/
theorem C8_deep_scan_slicing (today : Int) (q : List Char) (fmt : Int → List Char) :
    (time_slices today DATE_RANGE_DAYS DEEP_SCAN_INTERVAL_DAYS).length =
      (DATE_RANGE_DAYS + DEEP_SCAN_INTERVAL_DAYS - 1) / DEEP_SCAN_INTERVAL_DAYS ∧
    (time_slices today 365 7).length = 53 ∧
    contiguousDesc (time_slices today 365 7) = true ∧
    (time_slices today 365 7).head? = some (today - 7, today) ∧
    (time_slices today 365 7).getLast? = some (today - 365, today - 364) ∧
    (slice_queries q fmt today 365 7).length = 53 ∧
    (slice_queries q fmt today 365 7).all
      (fun s => GLOBAL_EXCLUDE_DORK.isSuffixOf s) = true := by
  have hsh : time_slices today 365 7 =
      (time_slices 0 365 7).map (fun p => (p.1 + today, p.2 + today)) := by
    have h := timeSlicesAux_shift 7 365 0 today 365
    simpa [time_slices] using h
  have hlen : (time_slices today 365 7).length = 53 := by
    rw [hsh, List.length_map]
    decide
  refine ⟨?_, hlen, ?_, ?_, ?_, ?_, ?_⟩
  · show (time_slices today 365 7).length = (365 + 7 - 1) / 7
    rw [hlen]
  · rw [hsh, contiguousDesc_map_shift]
    decide
  · rw [hsh, List.head?_map]
    have hh : (time_slices 0 365 7).head? = some (-7, 0) := by decide
    rw [hh]
    simp only [Option.map_some', Option.some.injEq, Prod.mk.injEq]
    omega
  · rw [hsh, List.getLast?_map]
    have hl : (time_slices 0 365 7).getLast? = some (-365, -364) := by decide
    rw [hl]
    simp only [Option.map_some', Option.some.injEq, Prod.mk.injEq]
    omega
  · simp [slice_queries, hlen]
  · rw [List.all_eq_true]
    intro s hs
    simp only [slice_queries, List.mem_map] at hs
    obtain ⟨p, hp, rfl⟩ := hs
    rw [List.isSuffixOf_iff_suffix]
    exact List.suffix_append _ _

theorem strLe_total : ∀ a b : List Char, strLe a b = true ∨ strLe b a = true
  | [], _ => Or.inl rfl
  | _ :: _, [] => Or.inr rfl
  | a :: as, b :: bs => by
    rcases lt_trichotomy a b with h | h | h
    · left; rw [strLe, if_pos h]
    · subst h
      rcases strLe_total as bs with ih | ih
      · left; rw [strLe, if_neg (lt_irrefl a), if_pos rfl]; exact ih
      · right; rw [strLe, if_neg (lt_irrefl a), if_pos rfl]; exact ih
    · right; rw [strLe, if_pos h]

theorem strLe_trans : ∀ a b c : List Char,
    strLe a b = true → strLe b c = true → strLe a c = true
  | [], _, _, _, _ => rfl
  | _ :: _, [], _, h, _ => by rw [strLe] at h; exact absurd h (by simp)
  | _ :: _, _ :: _, [], _, h => by rw [strLe] at h; exact absurd h (by simp)
  | a :: as, b :: bs, c :: cs, h1, h2 => by
    rw [strLe] at h1 h2 ⊢
    by_cases hab : a < b
    · by_cases hbc : b < c
      · rw [if_pos (lt_trans hab hbc)]
      · by_cases hbc2 : b = c
        · subst hbc2; rw [if_pos hab]
        · rw [if_neg hbc, if_neg hbc2] at h2; exact absurd h2 (by simp)
    · by_cases hab2 : a = b
      · subst hab2
        rw [if_neg hab, if_pos rfl] at h1
        by_cases hbc : a < c
        · rw [if_pos hbc]
        · by_cases hbc2 : a = c
          · subst hbc2
            rw [if_neg hbc, if_pos rfl] at h2 ⊢
            exact strLe_trans as bs cs h1 h2
          · rw [if_neg hbc, if_neg hbc2] at h2; exact absurd h2 (by simp)
      · rw [if_neg hab, if_neg hab2] at h1; exact absurd h1 (by simp)

theorem splitNl_line (l : List Char) (t : List Char) (h : '\n' ∉ l) :
    splitNl (l ++ '\n' :: t) = l :: splitNl t := by
  induction l with
  | nil => simp [splitNl]
  | cons c cs ih =>
    rw [List.mem_cons] at h
    push_neg at h
    obtain ⟨h1, h2⟩ := h
    simp only [List.cons_append, splitNl, if_neg (Ne.symm h1), List.append_eq,
      ih h2]

theorem splitNl_joinLines : ∀ (ls : List (List Char)), (∀ l ∈ ls, '\n' ∉ l) →
    splitNl (joinLines ls) = ls ++ [[]]
  | [], _ => rfl
  | l :: rest, h => by
    have h1 : '\n' ∉ l := h l (List.mem_cons_self _ _)
    have h2 : ∀ x ∈ rest, '\n' ∉ x := fun x hx => h x (List.mem_cons_of_mem _ hx)
    have e : joinLines (l :: rest) = l ++ '\n' :: joinLines rest := by
      simp [joinLines]
    rw [e, splitNl_line l _ h1, splitNl_joinLines rest h2, List.cons_append]

theorem dropWhile_append_last (c : Char) (h : Char.isWhitespace c = false) :
    ∀ xs : List Char, (xs ++ [c]).dropWhile Char.isWhitespace =
      xs.dropWhile Char.isWhitespace ++ [c]
  | [] => by simp [List.dropWhile, h]
  | x :: xt => by
    by_cases hx : Char.isWhitespace x
    · simp [List.dropWhile_cons, hx, dropWhile_append_last c h xt]
    · simp [List.dropWhile_cons, hx]

theorem stripCh_cons (c : Char) (l : List Char) (h : Char.isWhitespace c = false) :
    stripCh (c :: l) = c :: (l.reverse.dropWhile Char.isWhitespace).reverse := by
  unfold stripCh
  rw [List.dropWhile_cons]
  simp only [h, Bool.false_eq_true, if_false]
  rw [List.reverse_cons, dropWhile_append_last c h, List.reverse_append]
  simp

theorem keepLine_stripCh_hash (l : List Char) :
    keepLine (stripCh ('#' :: l)) = false := by
  rw [stripCh_cons '#' l (by decide)]
  simp [keepLine]

theorem load_save_scanned_shas (ts : List Char) (shas : List (List Char))
    (hts : '\n' ∉ ts)
    (hsha : ∀ s ∈ shas, '\n' ∉ s ∧ stripCh s = s ∧ keepLine s = true) :
    load_scanned_shas (save_scanned_shas ts shas) = sortShas shas := by
  have hmem : ∀ x ∈ sortShas shas, x ∈ shas := fun x hx =>
    (List.perm_insertionSort _ shas).mem_iff.mp hx
  have hnl : ∀ l ∈ headerLines ts ++ sortShas shas, '\n' ∉ l := by
    intro l hl
    rw [List.mem_append] at hl
    rcases hl with hl | hl
    · simp only [headerLines, List.mem_cons, List.not_mem_nil, or_false] at hl
      rcases hl with rfl | rfl | rfl
      · decide
      · intro hm
        rw [List.mem_append] at hm
        rcases hm with hm | hm
        · revert hm; decide
        · exact hts hm
      · exact List.not_mem_nil _
    · exact (hsha l (hmem l hl)).1
  rw [load_scanned_shas, save_scanned_shas, splitNl_joinLines _ hnl]
  have eh : (((headerLines ts).map stripCh).filter keepLine : List (List Char)) = [] := by
    have k1 : keepLine (stripCh ("# GitHub PAT Scanned SHAs".toList)) = false := by
      decide
    have k2 : keepLine (stripCh ("# Last Update: ".toList ++ ts)) = false := by
      have e : "# Last Update: ".toList ++ ts =
          '#' :: (" Last Update: ".toList ++ ts) := rfl
      rw [e, keepLine_stripCh_hash]
    have k3 : keepLine (stripCh ([] : List Char)) = false := rfl
    rw [headerLines, List.map_cons, List.map_cons, List.map_cons, List.map_nil,
      List.filter_cons, List.filter_cons, List.filter_cons, List.filter_nil,
      k1, k2, k3]
    simp
  have es : (((sortShas shas).map stripCh).filter keepLine) = sortShas shas := by
    have e1 : (sortShas shas).map stripCh = sortShas shas := by
      have := List.map_congr_left
        (fun a ha => ((hsha a (hmem a ha)).2.1 : stripCh a = a))
      rw [this]
      exact List.map_id _
    rw [e1]
    exact List.filter_eq_self.mpr fun a ha => (hsha a (hmem a ha)).2.2
  have k4 : ((([[]] : List (List Char)).map stripCh).filter keepLine) = [] := rfl
  simp only [List.append_assoc, List.map_append, List.filter_append, eh, es, k4]
  simp

/-- C9 counterexample: the sha `" a"` is non-empty and does not begin with
`'#'`, yet a save/load round trip does not reconstruct it: `load` strips
each line, so `" a"` comes back as `"a"` and the reloaded set is not equal
to the saved one. -/
theorem C9_counterexample :
    ((' ' :: 'a' :: []) ≠ ([] : List Char)) ∧
    (' ' :: 'a' :: []).head? ≠ some '#' ∧
    (' ' :: 'a' :: []) ∉ load_scanned_shas (save_scanned_shas ['T'] [[' ', 'a']]) ∧
    load_scanned_shas (save_scanned_shas ['T'] [[' ', 'a']]) = [['a']] := by
  decide

/-- C9 amended: for every set of shas that are non-empty, do not begin
with `'#'`, and additionally contain no newline and no leading or
trailing whitespace (conditions forced by the line-based store: `load`
iterates lines and strips each), `save_scanned_shas` followed by
`load_scanned_shas` reconstructs an equal set; each save rewrites the
file in full (the output is a function of the sha set alone) with the
shas in sorted order. -/
theorem C9_scanned_shas_roundtrip (ts : List Char) (shas : List (List Char))
    (hts : '\n' ∉ ts)
    (hsha : ∀ s ∈ shas, '\n' ∉ s ∧ stripCh s = s ∧ keepLine s = true) :
    load_scanned_shas (save_scanned_shas ts shas) = sortShas shas ∧
    (load_scanned_shas (save_scanned_shas ts shas)).toFinset = shas.toFinset ∧
    List.Sorted (fun a b : List Char => strLe a b = true) (sortShas shas) := by
  have e := load_save_scanned_shas ts shas hts hsha
  refine ⟨e, ?_, ?_⟩
  · rw [e]
    exact List.toFinset_eq_of_perm _ _ (List.perm_insertionSort _ shas)
  · exact @List.sorted_insertionSort (List Char)
      (fun a b : List Char => strLe a b = true) _ ⟨strLe_total⟩
      ⟨fun a b c => strLe_trans a b c⟩ shas

/-- C9 amended, witness: two unsorted shas round-trip to the equal set,
sorted. -/
theorem C9_scanned_shas_roundtrip_witness :
    load_scanned_shas (save_scanned_shas ['T'] [['b'], ['a']]) =
      sortShas [['b'], ['a']] ∧
    (load_scanned_shas (save_scanned_shas ['T'] [['b'], ['a']])).toFinset =
      ([['b'], ['a']] : List (List Char)).toFinset ∧
    List.Sorted (fun a b : List Char => strLe a b = true)
      (sortShas [['b'], ['a']]) :=
  C9_scanned_shas_roundtrip ['T'] [['b'], ['a']] (by decide) (by decide)

end Hajimi
